import Mathlib

/-!
Shallow embedding of the rpicam-apps streaming output controller
(src/output/output.hpp, src/output/output.cpp, src/output/file_output.cpp).

The controller `Output` receives encoder buffers via `OutputReady`,
gates them through a keyframe-synchronized state machine, renormalizes
timestamps across pause/resume, keeps a bounded pre-event ring buffer,
and manages a detection-triggered secondary MJPEG recording session
(`NotifyDetection`, `flush_pre_buffer_to_mjpeg`, `stopMjpegRecording`).
Side effects on the sinks (primary sink write, webhook call, secondary
MJPEG sink write, thumbnail write, sink open/close, transcode handoff)
are recorded as an explicit event trace.
-/

/-- Primary output state (`enum State` in output.hpp):
`DISABLED = 0`, `WAITING_KEYFRAME = 1`, `RUNNING = 2`. -/
inductive PState
  | DISABLED
  | WAITING_KEYFRAME
  | RUNNING
deriving DecidableEq, Repr

/-- `FLAG_KEYFRAME = 1` (`enum Flag` in output.hpp). -/
def FLAG_KEYFRAME : Nat := 1

/-- `FLAG_RESTART = 2` (`enum Flag` in output.hpp). -/
def FLAG_RESTART : Nat := 2

/-- A pre-buffer entry (`struct Frame`, used at output.cpp:114-119):
an owned copy of the delivered bytes (modelled by an opaque payload id),
the raw timestamp and the keyframe marker. -/
structure Frame where
  bytes : Nat
  ts : Int
  keyframe : Bool
deriving DecidableEq, Repr

/-- Observable sink effects of the controller. -/
inductive Ev
  | primary (mem : Nat) (ts : Int) (flags : Nat)
  | webhook (mem : Nat) (ts : Int)
  | mjpegWrite (mem : Nat) (ts : Int) (keyframe : Bool)
  | thumbnail (mem : Nat) (ts : Int)
  | openMjpeg (path : Nat)
  | closeMjpeg (path : Nat)
  | transcode (path : Nat)
deriving DecidableEq, Repr

/-- The mutable state of class `Output` (output.hpp:22-71, members used by
output.cpp).  `mjpeg_output` is `some path` exactly when the secondary
MJPEG recording sink is open (`isMjpegRecording`), where `path` is an
opaque id for the artifact filename held in `mjpeg_opts_->Get().output`.
`detection_record_us` models the configured
`detection_record_secs * 1'000'000` window, and `next_mjpeg_path` models
the wall-clock-derived fresh filename generation. -/
structure Output where
  state_ : PState
  enable_ : Bool
  time_offset_ : Int
  last_timestamp_ : Int
  pre_buffer_ : List Frame
  max_pre_frames : Nat
  detection_sequence_ : Int
  pending_flush_ : Bool
  first_frame : Bool
  mjpeg_output : Option Nat
  record_start_timestamp : Int
  record_end_timestamp : Int
  detection_record_us : Int
  next_mjpeg_path : Nat
deriving DecidableEq, Repr

namespace Output

/-- `isMjpegRecording()` (output.hpp:48): the secondary sink handle is non-null. -/
def isMjpegRecording (s : Output) : Bool := s.mjpeg_output.isSome

/-- Constructor state (output.cpp:28-60): `state_ = WAITING_KEYFRAME`,
`time_offset_ = 0`, `last_timestamp_ = 0`, `enable_ = !pause`,
`max_pre_frames = ceil(pre_detection_secs * framerate)` (given here as the
already-computed capacity), `detection_sequence_ = -1`, no session. -/
def mk0 (pause : Bool) (maxPre : Nat) (recordUs : Int) : Output where
  state_ := PState.WAITING_KEYFRAME
  enable_ := !pause
  time_offset_ := 0
  last_timestamp_ := 0
  pre_buffer_ := []
  max_pre_frames := maxPre
  detection_sequence_ := -1
  pending_flush_ := false
  first_frame := false
  mjpeg_output := none
  record_start_timestamp := 0
  record_end_timestamp := 0
  detection_record_us := recordUs
  next_mjpeg_path := 0

/-- `Signal()` (output.cpp:70-73): toggle `enable_`. -/
def Signal (s : Output) : Output := { s with enable_ := !s.enable_ }

/-- `startMjpegRecording` (output.cpp:399-441): open a fresh secondary
sink on a newly generated artifact path. -/
def startMjpegRecording (s : Output) : Output × List Ev :=
  ({ s with mjpeg_output := some s.next_mjpeg_path,
            next_mjpeg_path := s.next_mjpeg_path + 1 },
   [Ev.openMjpeg s.next_mjpeg_path])

/-- `NotifyDetection(int sequence_id)` (output.cpp:75-102). -/
def NotifyDetection (s : Output) (sequence_id : Int) : Output × List Ev :=
  let s0 := { s with detection_sequence_ := sequence_id }
  let now_us := s0.last_timestamp_
  if s0.isMjpegRecording = false then
    let s1 := { s0 with record_start_timestamp := now_us,
                        record_end_timestamp := now_us + s0.detection_record_us }
    let r := s1.startMjpegRecording
    ({ r.1 with pending_flush_ := true, first_frame := true }, r.2)
  else
    if now_us + s0.detection_record_us > s0.record_end_timestamp then
      ({ s0 with record_end_timestamp := now_us + s0.detection_record_us }, [])
    else
      (s0, [])

/-- `flush_pre_buffer_to_mjpeg(int64_t cutoff_ts)` (output.cpp:443-462):
walk the ring oldest-first, stopping at the first entry with
`ts >= cutoff_ts`, forward each visited entry renormalized by the current
`time_offset_`, then clear the ring. -/
def flush_pre_buffer_to_mjpeg (s : Output) (cutoff_ts : Int) : Output × List Ev :=
  if s.isMjpegRecording = false ∨ s.pre_buffer_ = [] then (s, [])
  else
    ({ s with pre_buffer_ := [] },
     (s.pre_buffer_.takeWhile (fun f => decide (f.ts < cutoff_ts))).map
       (fun f => Ev.mjpegWrite f.bytes (f.ts - s.time_offset_) f.keyframe))

/-- `stopMjpegRecording()` (output.cpp:491-543): close the secondary sink
and hand the artifact path off to the background transcode. -/
def stopMjpegRecording (s : Output) : Output × List Ev :=
  match s.mjpeg_output with
  | none => (s, [])
  | some p => ({ s with mjpeg_output := none }, [Ev.closeMjpeg p, Ev.transcode p])

end Output

/-- The pre-buffer eviction loop
`while (pre_buffer_.size() > max_pre_frames) pre_buffer_.pop_front();`
(output.cpp:120-122). -/
def evictOldest (maxN : Nat) : List Frame → List Frame
  | [] => []
  | f :: rest => if maxN < (f :: rest).length then evictOldest maxN rest else f :: rest

namespace Output

/-- The value of `state_` after the first two gate assignments of
`OutputReady` (output.cpp:128-131).  The flush and ring phases that
precede the gate in the source do not touch `enable_` or `state_`,
so the gate is computed from the entry state. -/
def gateState (s : Output) : PState :=
  if !s.enable_ then PState.DISABLED
  else if s.state_ = PState.DISABLED then PState.WAITING_KEYFRAME
  else s.state_

/-- Whether `FLAG_RESTART` is raised for this buffer (output.cpp:132-133). -/
def restartRaised (s : Output) (keyframe : Bool) : Bool :=
  decide (s.gateState = PState.WAITING_KEYFRAME) && keyframe

/-- The value of `state_` after the whole gate (output.cpp:128-133). -/
def postState (s : Output) (keyframe : Bool) : PState :=
  if s.restartRaised keyframe then PState.RUNNING else s.gateState

/-- The `flags` word passed downstream (output.cpp:127, 133). -/
def outFlags (s : Output) (keyframe : Bool) : Nat :=
  (if keyframe then FLAG_KEYFRAME else 0) |||
    (if s.restartRaised keyframe then FLAG_RESTART else 0)

/-- `OutputReady(void *mem, size_t size, int64_t timestamp_us, bool keyframe)`
(output.cpp:104-188).  The payload is the opaque id `mem`; `size` is
folded into the payload id since the controller never branches on it.
Each phase of the body only mutates the fields named in its `let`s, so
the final state is assembled as a single update of `s`. -/
def OutputReady (s : Output) (mem : Nat) (timestamp_us : Int) (keyframe : Bool) :
    Output × List Ev :=
  -- lines 106-110: pending-flush drain (runs before everything else);
  -- it touches only the ring and the pending flag
  let doFlush := s.pending_flush_ && s.isMjpegRecording
  let ev1 := if doFlush = true then (s.flush_pre_buffer_to_mjpeg timestamp_us).2 else []
  let ring1 := if doFlush = true then (s.flush_pre_buffer_to_mjpeg timestamp_us).1.pre_buffer_
               else s.pre_buffer_
  let pf1 := if doFlush = true then false else s.pending_flush_
  -- lines 112-123: copy into the ring, then evict from the front
  let ring2 := if s.max_pre_frames ≠ 0
               then evictOldest s.max_pre_frames (ring1 ++ [⟨mem, timestamp_us, keyframe⟩])
               else ring1
  -- lines 126-135: the keyframe-synchronized gate
  if s.postState keyframe ≠ PState.RUNNING then
    ({ s with pre_buffer_ := ring2, pending_flush_ := pf1, state_ := s.postState keyframe }, ev1)
  else
    -- lines 137-142: timestamp renormalization and the primary write
    let flags := s.outFlags keyframe
    let off := if flags &&& FLAG_RESTART ≠ 0 then timestamp_us - s.last_timestamp_
               else s.time_offset_
    let last := timestamp_us - off
    -- lines 158-163: one armed webhook attempt, then disarm
    let ev3 := if 0 ≤ s.detection_sequence_ then [Ev.webhook mem timestamp_us] else []
    let seq2 := if 0 ≤ s.detection_sequence_ then (-1 : Int) else s.detection_sequence_
    -- lines 165-187: secondary MJPEG session body
    if s.isMjpegRecording = true then
      let ev5 := if s.first_frame = true then [Ev.thumbnail mem timestamp_us] else []
      let s6 : Output :=
        { s with pre_buffer_ := ring2, pending_flush_ := pf1,
                 state_ := s.postState keyframe, time_offset_ := off, last_timestamp_ := last,
                 detection_sequence_ := seq2,
                 first_frame := if s.first_frame = true then false else s.first_frame }
      if last > s.record_end_timestamp then
        ((s6.stopMjpegRecording).1,
         ev1 ++ [Ev.primary mem last flags] ++ ev3 ++ [Ev.mjpegWrite mem last keyframe]
             ++ ev5 ++ (s6.stopMjpegRecording).2)
      else
        (s6, ev1 ++ [Ev.primary mem last flags] ++ ev3 ++ [Ev.mjpegWrite mem last keyframe] ++ ev5)
    else
      ({ s with pre_buffer_ := ring2, pending_flush_ := pf1,
                state_ := s.postState keyframe, time_offset_ := off, last_timestamp_ := last,
                detection_sequence_ := seq2 },
       ev1 ++ [Ev.primary mem last flags] ++ ev3)

end Output

/-- External stimuli of the controller. -/
inductive Cmd
  | deliver (mem : Nat) (ts : Int) (keyframe : Bool)
  | signal
  | notify (id : Int)
deriving DecidableEq, Repr

namespace Output

/-- One external call into the controller. -/
def step (s : Output) : Cmd → Output × List Ev
  | Cmd.deliver m ts k => s.OutputReady m ts k
  | Cmd.signal => (s.Signal, [])
  | Cmd.notify id => s.NotifyDetection id

/-- A sequence of external calls, with the concatenated sink-event trace. -/
def run (s : Output) : List Cmd → Output × List Ev
  | [] => (s, [])
  | c :: cs =>
      let r1 := s.step c
      let r2 := r1.1.run cs
      (r2.1, r1.2 ++ r2.2)

/-- The renormalized timestamp a `RUNNING` delivery emits
(output.cpp:137-140): on a restart the offset is recomputed so
the emitted timestamp equals the previous `last_timestamp_`;
otherwise it is `timestamp_us - time_offset_`. -/
def newLast (s : Output) (timestamp_us : Int) (keyframe : Bool) : Int :=
  if s.restartRaised keyframe = true then s.last_timestamp_
  else timestamp_us - s.time_offset_

end Output

/-- Recognizes a primary-sink write in the trace. -/
def isPrimaryEv : Ev → Bool
  | Ev.primary _ _ _ => true
  | _ => false

/-- Recognizes a webhook notification in the trace. -/
def isWebhookEv : Ev → Bool
  | Ev.webhook _ _ => true
  | _ => false

/-- Recognizes a secondary (MJPEG) sink write in the trace. -/
def isMjpegWriteEv : Ev → Bool
  | Ev.mjpegWrite _ _ _ => true
  | _ => false

/-- Recognizes a secondary-sink close in the trace. -/
def isCloseEv : Ev → Bool
  | Ev.closeMjpeg _ => true
  | _ => false

/-- Recognizes a transcode handoff in the trace. -/
def isTranscodeEv : Ev → Bool
  | Ev.transcode _ => true
  | _ => false

/-!
Embedding of `FileOutput` (src/output/file_output.cpp): the primary file
sink with segment/split rotation.
-/

/-- The slice of `VideoOptions` that `FileOutput` reads: `segment` (ms
threshold, 0 = off), `split`, `wrap`, and the shape of the configured
`output` string (`"-"`, empty, or a real path pattern). -/
structure FOptions where
  segment : Int
  split : Bool
  wrap : Nat
  outputDash : Bool
  outputEmpty : Bool
deriving DecidableEq, Repr

/-- The open stream of a `FileOutput`: `stdout`, or a real file named by
the `snprintf(filename, output, count_)` counter value. -/
inductive FP
  | stdoutFP
  | fileFP (idx : Nat)
deriving DecidableEq, Repr

/-- Mutable state of `FileOutput` (file_output.cpp:11-14). -/
structure FileOutput where
  fp_ : Option FP
  count_ : Nat
  file_start_time_ms_ : Int
deriving DecidableEq, Repr

/-- Observable effects of the file sink. -/
inductive FEv
  | closeF (idx : Nat)
  | openF (idx : Nat) (start_ms : Int)
  | writeF (mem : Nat) (size : Nat)
deriving DecidableEq, Repr

namespace FileOutput

/-- `closeFile()` (file_output.cpp:72-82): `fclose` only for real files,
then null the handle. -/
def closeFile (s : FileOutput) : FileOutput × List FEv :=
  match s.fp_ with
  | none => (s, [])
  | some FP.stdoutFP => ({ s with fp_ := none }, [])
  | some (FP.fileFP i) => ({ s with fp_ := none }, [FEv.closeF i])

/-- `openFile(int64_t timestamp_us)` (file_output.cpp:45-70). -/
def openFile (opts : FOptions) (s : FileOutput) (timestamp_us : Int) :
    FileOutput × List FEv :=
  if opts.outputDash = true then ({ s with fp_ := some FP.stdoutFP }, [])
  else if opts.outputEmpty = false then
    ({ s with fp_ := some (FP.fileFP s.count_),
              count_ := if opts.wrap ≠ 0 then (s.count_ + 1) % opts.wrap else s.count_ + 1,
              file_start_time_ms_ := timestamp_us.tdiv 1000 },
     [FEv.openF s.count_ (timestamp_us.tdiv 1000)])
  else (s, [])

/-- `outputBuffer(void *mem, size_t size, int64_t timestamp_us, uint32_t flags)`
(file_output.cpp:21-43). -/
def outputBuffer (opts : FOptions) (s : FileOutput) (mem : Nat) (size : Nat)
    (timestamp_us : Int) (flags : Nat) : FileOutput × List FEv :=
  let rotate : Bool :=
    decide (s.fp_ = none) ||
      (decide (opts.segment ≠ 0) && decide (flags &&& FLAG_KEYFRAME ≠ 0) &&
        decide (timestamp_us.tdiv 1000 - s.file_start_time_ms_ > opts.segment)) ||
      (opts.split && decide (flags &&& FLAG_RESTART ≠ 0))
  if rotate = true then
    let r1 := s.closeFile
    let r2 := openFile opts r1.1 timestamp_us
    (r2.1, r1.2 ++ r2.2 ++
      (if r2.1.fp_.isSome && decide (size ≠ 0) then [FEv.writeF mem size] else []))
  else
    (s, if s.fp_.isSome && decide (size ≠ 0) then [FEv.writeF mem size] else [])

/-- A sequence of `outputBuffer` calls `(mem, size, timestamp_us, flags)`,
with the concatenated sink-event trace. -/
def runBufs (opts : FOptions) (s : FileOutput) :
    List (Nat × Nat × Int × Nat) → FileOutput × List FEv
  | [] => (s, [])
  | b :: bs =>
      let r1 := outputBuffer opts s b.1 b.2.1 b.2.2.1 b.2.2.2
      let r2 := runBufs opts r1.1 bs
      (r2.1, r1.2 ++ r2.2)

end FileOutput

/-!  Supporting lemmas. -/

lemma outFlags_and_restart (s : Output) (k : Bool) :
    (s.outFlags k &&& FLAG_RESTART ≠ 0) ↔ s.restartRaised k = true := by
  unfold Output.outFlags FLAG_RESTART FLAG_KEYFRAME
  rcases hr : s.restartRaised k <;> rcases k <;> simp [hr]

lemma outFlags_and_keyframe (s : Output) (k : Bool) :
    (s.outFlags k &&& FLAG_KEYFRAME ≠ 0) ↔ k = true := by
  unfold Output.outFlags FLAG_RESTART FLAG_KEYFRAME
  rcases hr : s.restartRaised k <;> rcases k <;> simp [hr]

lemma restart_keyframe (s : Output) (k : Bool) (h : s.restartRaised k = true) : k = true := by
  unfold Output.restartRaised at h
  exact (Bool.and_eq_true _ _).mp h |>.2

lemma restart_running (s : Output) (k : Bool) (h : s.restartRaised k = true) :
    s.postState k = PState.RUNNING := by
  simp [Output.postState, h]

lemma evictOldest_eq_drop (maxN : Nat) (l : List Frame) :
    evictOldest maxN l = l.drop (l.length - maxN) := by
  induction l with
  | nil => simp [evictOldest]
  | cons f rest ih =>
      by_cases h : maxN < (f :: rest).length
      · have hlen : (f :: rest).length - maxN = (rest.length - maxN) + 1 := by
          simp only [List.length_cons] at h ⊢
          omega
        simp only [evictOldest, if_pos h, hlen, List.drop_succ_cons, ih]
      · have hlen : (f :: rest).length - maxN = 0 := by
          simp only [List.length_cons] at h ⊢
          omega
        simp only [evictOldest, if_neg h, hlen, List.drop_zero]

lemma evictOldest_length_le (maxN : Nat) (l : List Frame) :
    (evictOldest maxN l).length ≤ maxN := by
  by_cases h : maxN ≤ l.length
  · rw [evictOldest_eq_drop, List.length_drop]
    omega
  · rw [evictOldest_eq_drop, List.length_drop]
    omega

lemma takeWhile_eq_filter_of_sorted (c : Int) (l : List Frame)
    (h : l.Pairwise (fun a b => a.ts ≤ b.ts)) :
    l.takeWhile (fun f => decide (f.ts < c)) = l.filter (fun f => decide (f.ts < c)) := by
  induction l with
  | nil => rfl
  | cons f rest ih =>
      rcases List.pairwise_cons.mp h with ⟨hf, hrest⟩
      by_cases hlt : f.ts < c
      · simp [List.takeWhile_cons, List.filter_cons, hlt, ih hrest]
      · have hnone : rest.filter (fun f => decide (f.ts < c)) = [] := by
          rw [List.filter_eq_nil_iff]
          intro g hg
          have := hf g hg
          simp only [decide_eq_true_eq]
          omega
        simp [List.takeWhile_cons, List.filter_cons, hlt, hnone]

lemma filter_map_none {α : Type} (p : Ev → Bool) (g : α → Ev)
    (hp : ∀ a, p (g a) = false) (l : List α) : (l.map g).filter p = [] := by
  induction l with
  | nil => rfl
  | cons a rest ih => simp [List.filter_cons, hp a, ih]

lemma flush_snd (s : Output) (c : Int) :
    (s.flush_pre_buffer_to_mjpeg c).2 =
      if s.isMjpegRecording = false ∨ s.pre_buffer_ = [] then []
      else (s.pre_buffer_.takeWhile (fun f => decide (f.ts < c))).map
        (fun f => Ev.mjpegWrite f.bytes (f.ts - s.time_offset_) f.keyframe) := by
  unfold Output.flush_pre_buffer_to_mjpeg
  split <;> rfl

lemma flush_fst_pre_buffer (s : Output) (c : Int) (h : s.isMjpegRecording = true) :
    (s.flush_pre_buffer_to_mjpeg c).1.pre_buffer_ = [] := by
  unfold Output.flush_pre_buffer_to_mjpeg
  by_cases hg : s.isMjpegRecording = false ∨ s.pre_buffer_ = []
  · rcases hg with hg | hg
    · rw [h] at hg
      exact absurd hg (by simp)
    · simp [hg]
  · simp [hg]

lemma flush_snd_filter_not_mjpeg (s : Output) (c : Int) (p : Ev → Bool)
    (hp : ∀ b t kk, p (Ev.mjpegWrite b t kk) = false) :
    ((s.flush_pre_buffer_to_mjpeg c).2).filter p = [] := by
  rw [flush_snd]
  split
  · rfl
  · exact filter_map_none p _ (fun (f : Frame) => hp f.bytes (f.ts - s.time_offset_) f.keyframe) _

lemma ite_self_false (b : Bool) : (if b = true then false else b) = false := by
  rcases b <;> rfl

lemma OutputReady_not_running (s : Output) (m : Nat) (ts : Int) (k : Bool)
    (h : s.postState k ≠ PState.RUNNING) :
    s.OutputReady m ts k =
      ({ s with
           pre_buffer_ :=
             if s.max_pre_frames ≠ 0 then
               evictOldest s.max_pre_frames
                 ((if (s.pending_flush_ && s.isMjpegRecording) = true then
                     (s.flush_pre_buffer_to_mjpeg ts).1.pre_buffer_
                   else s.pre_buffer_) ++ [⟨m, ts, k⟩])
             else
               (if (s.pending_flush_ && s.isMjpegRecording) = true then
                  (s.flush_pre_buffer_to_mjpeg ts).1.pre_buffer_
                else s.pre_buffer_),
           pending_flush_ :=
             if (s.pending_flush_ && s.isMjpegRecording) = true then false else s.pending_flush_,
           state_ := s.postState k },
       if (s.pending_flush_ && s.isMjpegRecording) = true
       then (s.flush_pre_buffer_to_mjpeg ts).2 else []) := by
  simp only [Output.OutputReady]
  rw [if_pos h]

lemma OutputReady_fst_time_offset (s : Output) (m : Nat) (ts : Int) (k : Bool) :
    (s.OutputReady m ts k).1.time_offset_ =
      if s.postState k = PState.RUNNING then
        (if s.restartRaised k = true then ts - s.last_timestamp_ else s.time_offset_)
      else s.time_offset_ := by
  by_cases h : s.postState k = PState.RUNNING
  · simp only [Output.OutputReady, outFlags_and_restart]
    rw [if_neg (by simp [h])]
    by_cases hrec : s.isMjpegRecording = true
    · simp only [hrec, if_true, Output.stopMjpegRecording]
      rcases hmj : s.mjpeg_output with _ | p
      · rw [Output.isMjpegRecording, hmj] at hrec
        simp at hrec
      · simp only [h, hmj, if_true]
        all_goals first
          | rfl
          | (split <;> first
              | rfl
              | (split <;> rfl))
    · simp only [hrec, h, if_true, Bool.false_eq_true, if_false]
  · rw [OutputReady_not_running s m ts k h]
    simp [h]

lemma OutputReady_running_rec (s : Output) (m : Nat) (ts : Int) (k : Bool) (p : Nat)
    (h : s.postState k = PState.RUNNING) (hmj : s.mjpeg_output = some p) :
    s.OutputReady m ts k =
      ({ s with
           pre_buffer_ :=
             if s.max_pre_frames ≠ 0 then
               evictOldest s.max_pre_frames
                 ((if s.pending_flush_ = true then
                     (s.flush_pre_buffer_to_mjpeg ts).1.pre_buffer_
                   else s.pre_buffer_) ++ [⟨m, ts, k⟩])
             else
               (if s.pending_flush_ = true then
                  (s.flush_pre_buffer_to_mjpeg ts).1.pre_buffer_
                else s.pre_buffer_),
           pending_flush_ := false,
           state_ := PState.RUNNING,
           time_offset_ :=
             if s.restartRaised k = true then ts - s.last_timestamp_ else s.time_offset_,
           last_timestamp_ :=
             ts - (if s.restartRaised k = true then ts - s.last_timestamp_ else s.time_offset_),
           detection_sequence_ :=
             if 0 ≤ s.detection_sequence_ then -1 else s.detection_sequence_,
           first_frame := false,
           mjpeg_output :=
             if ts - (if s.restartRaised k = true then ts - s.last_timestamp_ else s.time_offset_)
                  > s.record_end_timestamp
             then none else some p },
       (if s.pending_flush_ = true then (s.flush_pre_buffer_to_mjpeg ts).2 else [])
         ++ [Ev.primary m
               (ts - (if s.restartRaised k = true then ts - s.last_timestamp_ else s.time_offset_))
               (s.outFlags k)]
         ++ (if 0 ≤ s.detection_sequence_ then [Ev.webhook m ts] else [])
         ++ [Ev.mjpegWrite m
               (ts - (if s.restartRaised k = true then ts - s.last_timestamp_ else s.time_offset_)) k]
         ++ (if s.first_frame = true then [Ev.thumbnail m ts] else [])
         ++ (if ts - (if s.restartRaised k = true then ts - s.last_timestamp_ else s.time_offset_)
                  > s.record_end_timestamp
             then [Ev.closeMjpeg p, Ev.transcode p] else [])) := by
  have hrec : s.isMjpegRecording = true := by
    rw [Output.isMjpegRecording, hmj]
    rfl
  simp only [Output.OutputReady, outFlags_and_restart]
  rw [if_neg (by simp [h])]
  simp only [hrec, Bool.and_true, if_true, Output.stopMjpegRecording, hmj, h, ite_self_false]
  all_goals ((try split) <;> (try split) <;> (try split) <;> first
    | rfl
    | simp)

lemma OutputReady_running_norec (s : Output) (m : Nat) (ts : Int) (k : Bool)
    (h : s.postState k = PState.RUNNING) (hmj : s.mjpeg_output = none) :
    s.OutputReady m ts k =
      ({ s with
           pre_buffer_ :=
             if s.max_pre_frames ≠ 0 then
               evictOldest s.max_pre_frames (s.pre_buffer_ ++ [⟨m, ts, k⟩])
             else s.pre_buffer_,
           pending_flush_ := s.pending_flush_,
           state_ := PState.RUNNING,
           time_offset_ :=
             if s.restartRaised k = true then ts - s.last_timestamp_ else s.time_offset_,
           last_timestamp_ :=
             ts - (if s.restartRaised k = true then ts - s.last_timestamp_ else s.time_offset_),
           detection_sequence_ :=
             if 0 ≤ s.detection_sequence_ then -1 else s.detection_sequence_ },
       [Ev.primary m
          (ts - (if s.restartRaised k = true then ts - s.last_timestamp_ else s.time_offset_))
          (s.outFlags k)]
         ++ (if 0 ≤ s.detection_sequence_ then [Ev.webhook m ts] else [])) := by
  have hrec : s.isMjpegRecording = false := by
    rw [Output.isMjpegRecording, hmj]
    rfl
  simp only [Output.OutputReady, outFlags_and_restart]
  rw [if_neg (by simp [h])]
  simp only [hrec, Bool.and_false, Bool.false_eq_true, if_false, h]
  all_goals ((try split) <;> (try split) <;> (try split) <;> rfl)

lemma filter_ite (p : Ev → Bool) (c : Prop) [Decidable c] (l1 l2 : List Ev) :
    (if c then l1 else l2).filter p = if c then l1.filter p else l2.filter p := by
  split <;> rfl

/-- C2: `time_offset_` is recomputed exactly at deliveries whose buffer
carries the `Restart` flag (the transition into `RUNNING`), as the raw
timestamp minus the previous `last_timestamp_` — and then the emitted
timestamp equals the previous `last_timestamp_`, so the emitted timeline
is continuous across a disable/enable cycle; on every forwarded buffer
`last_timestamp_ = rawTimestamp - time_offset_`, and the buffer is
forwarded to the primary sink exactly once with that renormalized
timestamp; deliveries without `Restart` never change `time_offset_`. -/
theorem C2_timeline_renormalization (s : Output) (m : Nat) (ts : Int) (k : Bool) :
    (s.restartRaised k = true →
       (s.OutputReady m ts k).1.time_offset_ = ts - s.last_timestamp_ ∧
       (s.OutputReady m ts k).1.last_timestamp_ = s.last_timestamp_) ∧
    (s.restartRaised k = false →
       (s.OutputReady m ts k).1.time_offset_ = s.time_offset_) ∧
    ((s.outFlags k &&& FLAG_RESTART ≠ 0) ↔ s.restartRaised k = true) ∧
    (s.postState k = PState.RUNNING →
       (s.OutputReady m ts k).1.last_timestamp_ = ts - (s.OutputReady m ts k).1.time_offset_ ∧
       (s.OutputReady m ts k).2.filter isPrimaryEv =
         [Ev.primary m (ts - (s.OutputReady m ts k).1.time_offset_) (s.outFlags k)]) ∧
    (s.postState k ≠ PState.RUNNING →
       (s.OutputReady m ts k).1.last_timestamp_ = s.last_timestamp_ ∧
       (s.OutputReady m ts k).2.filter isPrimaryEv = []) := by
  refine ⟨?_, ?_, outFlags_and_restart s k, ?_, ?_⟩
  · intro h
    have hrun := restart_running s k h
    rcases hmj : s.mjpeg_output with _ | p
    · rw [OutputReady_running_norec s m ts k hrun hmj]
      simp [h]
    · rw [OutputReady_running_rec s m ts k p hrun hmj]
      simp [h]
  · intro h
    rw [OutputReady_fst_time_offset]
    simp [h]
  · intro hrun
    rcases hmj : s.mjpeg_output with _ | p
    · rw [OutputReady_running_norec s m ts k hrun hmj]
      simp [List.filter_append, filter_ite, isPrimaryEv]
    · rw [OutputReady_running_rec s m ts k p hrun hmj]
      simp [List.filter_append, filter_ite, isPrimaryEv,
        flush_snd_filter_not_mjpeg s ts isPrimaryEv (fun _ _ _ => rfl)]
  · intro hrun
    rw [OutputReady_not_running s m ts k hrun]
    simp [List.filter_append, filter_ite, isPrimaryEv,
      flush_snd_filter_not_mjpeg s ts isPrimaryEv (fun _ _ _ => rfl)]

/-- Witness for C2 at a concrete restart delivery. -/
theorem C2_timeline_renormalization_witness :
    (Output.mk0 false 2 1000000).restartRaised true = true ∧
    (((Output.mk0 false 2 1000000).OutputReady 4 42 true).1.time_offset_ =
        42 - (Output.mk0 false 2 1000000).last_timestamp_ ∧
     ((Output.mk0 false 2 1000000).OutputReady 4 42 true).1.last_timestamp_ =
        (Output.mk0 false 2 1000000).last_timestamp_) :=
  ⟨by decide, (C2_timeline_renormalization (Output.mk0 false 2 1000000) 4 42 true).1 (by decide)⟩

/-- C5: a `NotifyDetection` while a session is active never opens a second
secondary sink (no open event, `mjpeg_output` unchanged), never restarts
the session (start timestamp, pending-flush and first-frame flags all
unchanged), and sets the end deadline to
`max(current end, now + detection window)` — so it is never shortened. -/
theorem C5_session_extend (s : Output) (id : Int) (h : s.isMjpegRecording = true) :
    (s.NotifyDetection id).1.mjpeg_output = s.mjpeg_output ∧
    (s.NotifyDetection id).2 = [] ∧
    (s.NotifyDetection id).1.record_start_timestamp = s.record_start_timestamp ∧
    (s.NotifyDetection id).1.record_end_timestamp =
      max s.record_end_timestamp (s.last_timestamp_ + s.detection_record_us) ∧
    s.record_end_timestamp ≤ (s.NotifyDetection id).1.record_end_timestamp ∧
    (s.NotifyDetection id).1.pending_flush_ = s.pending_flush_ ∧
    (s.NotifyDetection id).1.first_frame = s.first_frame := by
  simp only [Output.isMjpegRecording] at h
  unfold Output.NotifyDetection
  simp only [Output.isMjpegRecording, h, Bool.true_eq_false, if_false]
  split
  case isTrue h2 =>
    refine ⟨rfl, rfl, rfl, ?_, ?_, rfl, rfl⟩
    · exact (max_eq_right h2.le).symm
    · exact h2.le
  case isFalse h2 =>
    refine ⟨rfl, rfl, rfl, ?_, le_refl _, rfl, rfl⟩
    show s.record_end_timestamp =
      max s.record_end_timestamp (s.last_timestamp_ + s.detection_record_us)
    exact (max_eq_left (by omega)).symm

/-- Witness for C5 at a concrete active session. -/
theorem C5_session_extend_witness :
    (⟨PState.RUNNING, true, 0, 500, [], 2, -1, false, true, some 3, 100, 700, 1000, 4⟩ :
        Output).isMjpegRecording = true ∧
    ((⟨PState.RUNNING, true, 0, 500, [], 2, -1, false, true, some 3, 100, 700, 1000, 4⟩ :
        Output).NotifyDetection 9).1.record_end_timestamp = max 700 (500 + 1000) ∧
    ((⟨PState.RUNNING, true, 0, 500, [], 2, -1, false, true, some 3, 100, 700, 1000, 4⟩ :
        Output).NotifyDetection 9).2 = [] :=
  ⟨by decide,
   (C5_session_extend _ 9 (by decide)).2.2.2.1,
   (C5_session_extend _ 9 (by decide)).2.1⟩

lemma evictOldest_singleton (maxN : Nat) (f : Frame) (h : maxN ≠ 0) :
    evictOldest maxN [f] = [f] := by
  unfold evictOldest
  rw [if_neg (by simp; omega)]

/-- C1 counterexample: after `deliver(10, ts=0, key)` and a detection, the
session's trigger timestamp (`record_start_timestamp`, taken from the
renormalized `last_timestamp_`) is `0`, and the ring holds exactly one
frame with timestamp `0`, which is *not* strictly less than the trigger
timestamp; yet the next delivery's pending flush still forwards that
frame to the secondary sink — because the code bounds the flush by the
*current delivery's raw timestamp* (`100`), not by the trigger timestamp. -/
theorem C1_counterexample :
    ((Output.mk0 false 2 1000000000).run
        [Cmd.deliver 10 0 true, Cmd.notify 1]).1.record_start_timestamp = 0 ∧
    ((Output.mk0 false 2 1000000000).run
        [Cmd.deliver 10 0 true, Cmd.notify 1]).1.pre_buffer_ = [⟨10, 0, true⟩] ∧
    ((Output.mk0 false 2 1000000000).run
        [Cmd.deliver 10 0 true, Cmd.notify 1]).1.pending_flush_ = true ∧
    ¬ ((0 : Int) < 0) ∧
    Ev.mjpegWrite 10 0 true ∈
      ((((Output.mk0 false 2 1000000000).run
          [Cmd.deliver 10 0 true, Cmd.notify 1]).1).OutputReady 11 100 false).2 := by
  decide

/-- C1 (amended): on the delivery that performs the pending flush, the
cutoff is the *current delivery's raw timestamp* `ts` (not the trigger's
own timestamp): assuming the ring is sorted by timestamp, exactly the
retained frames with timestamp strictly below `ts` are forwarded to the
secondary sink, oldest first, each renormalized by the primary's current
`time_offset_`; afterwards the pending-flush flag is cleared and the ring
is cleared (holding only the just-delivered frame when pre-buffering is
enabled). -/
theorem C1_pending_flush_drain (s : Output) (m : Nat) (ts : Int) (k : Bool)
    (hp : s.pending_flush_ = true) (hrec : s.isMjpegRecording = true)
    (hsort : s.pre_buffer_.Pairwise (fun a b => a.ts ≤ b.ts)) :
    (s.OutputReady m ts k).1.pending_flush_ = false ∧
    (s.OutputReady m ts k).1.pre_buffer_ =
      (if s.max_pre_frames ≠ 0 then [⟨m, ts, k⟩] else []) ∧
    (s.OutputReady m ts k).2.take
        ((s.pre_buffer_.filter (fun f => decide (f.ts < ts))).length) =
      (s.pre_buffer_.filter (fun f => decide (f.ts < ts))).map
        (fun f => Ev.mjpegWrite f.bytes (f.ts - s.time_offset_) f.keyframe) := by
  have hflev : (s.flush_pre_buffer_to_mjpeg ts).2 =
      (s.pre_buffer_.filter (fun f => decide (f.ts < ts))).map
        (fun f => Ev.mjpegWrite f.bytes (f.ts - s.time_offset_) f.keyframe) := by
    rw [flush_snd]
    by_cases hnil : s.pre_buffer_ = []
    · simp [hnil]
    · rw [if_neg (by simp [hrec, hnil])]
      rw [takeWhile_eq_filter_of_sorted ts _ hsort]
  have hring : (s.flush_pre_buffer_to_mjpeg ts).1.pre_buffer_ = [] :=
    flush_fst_pre_buffer s ts hrec
  have htake : ∀ rest : List Ev,
      ((s.flush_pre_buffer_to_mjpeg ts).2 ++ rest).take
          ((s.pre_buffer_.filter (fun f => decide (f.ts < ts))).length) =
        (s.pre_buffer_.filter (fun f => decide (f.ts < ts))).map
          (fun f => Ev.mjpegWrite f.bytes (f.ts - s.time_offset_) f.keyframe) := by
    intro rest
    rw [hflev]
    exact List.take_left' (List.length_map _ _)
  by_cases hrun : s.postState k = PState.RUNNING
  · rcases hmj : s.mjpeg_output with _ | p
    · rw [Output.isMjpegRecording, hmj] at hrec
      simp at hrec
    · rw [OutputReady_running_rec s m ts k p hrun hmj]
      refine ⟨rfl, ?_, ?_⟩
      · simp only [hp, if_true, hring]
        split
        next hmax =>
          simp [evictOldest_singleton s.max_pre_frames _ (by omega), hmax]
        next hmax =>
          simp [hmax]
      · simp only [hp, if_true, List.append_assoc]
        exact htake _
  · rw [OutputReady_not_running s m ts k hrun]
    have hdo : (s.pending_flush_ && s.isMjpegRecording) = true := by
      rw [hp, hrec]
      rfl
    refine ⟨?_, ?_, ?_⟩
    · simp [hdo]
    · simp only [hdo, if_true, hring]
      split
      next hmax =>
        simp [evictOldest_singleton s.max_pre_frames _ (by omega), hmax]
      next hmax =>
        simp [hmax]
    · simp only [hdo, if_true]
      rw [hflev]
      have hl := List.length_map
        (List.filter (fun f => decide (f.ts < ts)) s.pre_buffer_)
        (fun (f : Frame) => Ev.mjpegWrite f.bytes (f.ts - s.time_offset_) f.keyframe)
      rw [← hl]
      exact List.take_length _

/-- Witness for C1 (amended) at a concrete pending-flush delivery. -/
theorem C1_pending_flush_drain_witness :
    (⟨PState.RUNNING, true, 5, 45, [⟨1, 10, true⟩, ⟨2, 50, false⟩], 4, -1, true, true,
        some 0, 45, 2000045, 2000000, 1⟩ : Output).pending_flush_ = true ∧
    (⟨PState.RUNNING, true, 5, 45, [⟨1, 10, true⟩, ⟨2, 50, false⟩], 4, -1, true, true,
        some 0, 45, 2000045, 2000000, 1⟩ : Output).isMjpegRecording = true ∧
    ((⟨PState.RUNNING, true, 5, 45, [⟨1, 10, true⟩, ⟨2, 50, false⟩], 4, -1, true, true,
        some 0, 45, 2000045, 2000000, 1⟩ : Output).OutputReady 9 60 false).1.pending_flush_ =
      false :=
  ⟨by decide, by decide,
   (C1_pending_flush_drain
      (⟨PState.RUNNING, true, 5, 45, [⟨1, 10, true⟩, ⟨2, 50, false⟩], 4, -1, true, true,
        some 0, 45, 2000045, 2000000, 1⟩ : Output) 9 60 false
      (by decide) (by decide) (by decide)).1⟩

/-- C3 counterexample: the controller is disabled from construction
(`pause = true`) and stays disabled through the whole run (no `Signal`
call); a buffer delivered while disabled enters the ring, a detection
arms a session with a pending flush, and the *next delivery while still
disabled* writes that buffer's bytes to the secondary sink — the
pending-flush drain runs before the enable gate in `OutputReady`. -/
theorem C3_counterexample :
    (Output.mk0 true 2 1000000000).enable_ = false ∧
    ((Output.mk0 true 2 1000000000).run
        [Cmd.deliver 5 0 true, Cmd.notify 1]).1.enable_ = false ∧
    ((((Output.mk0 true 2 1000000000).run
        [Cmd.deliver 5 0 true, Cmd.notify 1]).1).OutputReady 6 100 false).2 =
      [Ev.mjpegWrite 5 0 true] := by
  decide

/-- C3 (amended): a delivery made while the controller is disabled writes
nothing to any sink *unless* an armed pending flush for an active session
drains ring frames to the secondary sink; in particular, with no pending
flush (or no active session) a disabled delivery produces no sink event
at all, and even with a pending flush the current buffer itself is never
forwarded. -/
theorem C3_disabled_no_sink (s : Output) (m : Nat) (ts : Int) (k : Bool)
    (h : s.enable_ = false) :
    (s.OutputReady m ts k).2 =
      (if (s.pending_flush_ && s.isMjpegRecording) = true
       then (s.flush_pre_buffer_to_mjpeg ts).2 else []) ∧
    ((s.pending_flush_ = false ∨ s.mjpeg_output = none) →
       (s.OutputReady m ts k).2 = []) := by
  have hgate : s.gateState = PState.DISABLED := by
    unfold Output.gateState
    rw [h]
    rfl
  have hres : s.restartRaised k = false := by
    unfold Output.restartRaised
    rw [hgate]
    rfl
  have hpost : s.postState k ≠ PState.RUNNING := by
    unfold Output.postState
    rw [hres, hgate]
    simp
  constructor
  · rw [OutputReady_not_running s m ts k hpost]
  · intro hno
    rw [OutputReady_not_running s m ts k hpost]
    rcases hno with hno | hno
    · simp [hno]
    · simp [Output.isMjpegRecording, hno]

/-- Witness for C3 (amended): a disabled delivery with no session emits
no sink event. -/
theorem C3_disabled_no_sink_witness :
    (Output.mk0 true 3 1000000).enable_ = false ∧
    ((Output.mk0 true 3 1000000).OutputReady 7 500 true).2 = [] :=
  ⟨by decide,
   (C3_disabled_no_sink (Output.mk0 true 3 1000000) 7 500 true (by decide)).2 (Or.inl (by decide))⟩

/-- C4 counterexample: a second detection signal arriving while the
session is already active *does* issue a second webhook notification on
the next forwarded frame — `NotifyDetection` re-arms
`detection_sequence_` unconditionally. -/
theorem C4_counterexample :
    ((Output.mk0 false 0 1000000000).run
        [Cmd.deliver 1 0 true, Cmd.notify 7, Cmd.deliver 2 100 false]).1.isMjpegRecording =
      true ∧
    ((Output.mk0 false 0 1000000000).run
        [Cmd.deliver 1 0 true, Cmd.notify 7, Cmd.deliver 2 100 false, Cmd.notify 8,
         Cmd.deliver 3 200 false]).2.filter isWebhookEv =
      [Ev.webhook 2 100, Ev.webhook 3 200] := by
  decide

/-- C4 (amended): the webhook is driven by the `detection_sequence_`
arming flag, not one-per-signal: a forwarded (RUNNING) delivery while
armed issues exactly one webhook carrying the frame bytes and its raw
timestamp and disarms; a dropped delivery issues none and leaves the
flag armed; and every `NotifyDetection(id)` (re)arms the flag — also
while a session is active, so such a signal does trigger one more
notification on the next forwarded frame (and a signal overwritten
before any frame is forwarded gets none of its own). -/
theorem C4_webhook_arming (s : Output) (m : Nat) (ts : Int) (k : Bool) (id : Int) :
    ((s.OutputReady m ts k).2.filter isWebhookEv =
       if s.postState k = PState.RUNNING ∧ 0 ≤ s.detection_sequence_
       then [Ev.webhook m ts] else []) ∧
    ((s.OutputReady m ts k).1.detection_sequence_ =
       if s.postState k = PState.RUNNING ∧ 0 ≤ s.detection_sequence_
       then -1 else s.detection_sequence_) ∧
    (s.NotifyDetection id).1.detection_sequence_ = id := by
  refine ⟨?_, ?_, ?_⟩
  · by_cases hrun : s.postState k = PState.RUNNING
    · rcases hmj : s.mjpeg_output with _ | p
      · rw [OutputReady_running_norec s m ts k hrun hmj]
        simp [List.filter_append, filter_ite, isWebhookEv, hrun]
      · rw [OutputReady_running_rec s m ts k p hrun hmj]
        simp [List.filter_append, filter_ite, isWebhookEv, hrun,
          flush_snd_filter_not_mjpeg s ts isWebhookEv (fun _ _ _ => rfl)]
    · rw [OutputReady_not_running s m ts k hrun]
      simp [List.filter_append, filter_ite, isWebhookEv, hrun,
        flush_snd_filter_not_mjpeg s ts isWebhookEv (fun _ _ _ => rfl)]
  · by_cases hrun : s.postState k = PState.RUNNING
    · rcases hmj : s.mjpeg_output with _ | p
      · rw [OutputReady_running_norec s m ts k hrun hmj]
        simp [hrun]
      · rw [OutputReady_running_rec s m ts k p hrun hmj]
        simp [hrun]
    · rw [OutputReady_not_running s m ts k hrun]
      simp [hrun]
  · simp only [Output.NotifyDetection, Output.startMjpegRecording]
    split
    · rfl
    · split <;> rfl

/-- C8 counterexample: with a session active, a delivery made while the
controller is disabled is dropped by the primary state machine and is
*not* forwarded to the secondary sink (no sink event at all), and no
deadline close happens, even though the session stays active. -/
theorem C8_counterexample :
    ((Output.mk0 false 0 1000000000).run
        [Cmd.deliver 1 0 true, Cmd.notify 5, Cmd.signal]).1.isMjpegRecording = true ∧
    ((((Output.mk0 false 0 1000000000).run
        [Cmd.deliver 1 0 true, Cmd.notify 5, Cmd.signal]).1).OutputReady 2 100 false).2 = [] ∧
    ((((Output.mk0 false 0 1000000000).run
        [Cmd.deliver 1 0 true, Cmd.notify 5, Cmd.signal]).1).OutputReady 2 100 false).1.isMjpegRecording =
      true := by
  decide

/-- C8 (amended): while a session is active, a delivery that reaches
`RUNNING` emits — in order — the pending-flush drain, the primary write,
the optional webhook, the forward of the current buffer to the secondary
sink at the renormalized timestamp, the optional thumbnail, and the
deadline-close events iff the renormalized timestamp exceeds the
deadline; a delivery dropped by the primary state machine emits only the
pending-flush drain (in particular the current buffer never reaches the
secondary sink and the deadline is not checked). -/
theorem C8_session_forwarding (s : Output) (m : Nat) (ts : Int) (k : Bool) (p : Nat)
    (hmj : s.mjpeg_output = some p) :
    (s.postState k = PState.RUNNING →
       (s.OutputReady m ts k).2 =
         (if s.pending_flush_ = true then (s.flush_pre_buffer_to_mjpeg ts).2 else [])
           ++ [Ev.primary m (s.newLast ts k) (s.outFlags k)]
           ++ (if 0 ≤ s.detection_sequence_ then [Ev.webhook m ts] else [])
           ++ [Ev.mjpegWrite m (s.newLast ts k) k]
           ++ (if s.first_frame = true then [Ev.thumbnail m ts] else [])
           ++ (if s.newLast ts k > s.record_end_timestamp
               then [Ev.closeMjpeg p, Ev.transcode p] else [])) ∧
    (s.postState k ≠ PState.RUNNING →
       (s.OutputReady m ts k).2 =
         (if (s.pending_flush_ && s.isMjpegRecording) = true
          then (s.flush_pre_buffer_to_mjpeg ts).2 else [])) := by
  have hnl : ts - (if s.restartRaised k = true then ts - s.last_timestamp_ else s.time_offset_) =
      s.newLast ts k := by
    unfold Output.newLast
    by_cases hres : s.restartRaised k = true
    · simp [hres, sub_sub_cancel]
    · simp [hres]
  constructor
  · intro hrun
    rw [OutputReady_running_rec s m ts k p hrun hmj, hnl]
  · intro hrun
    rw [OutputReady_not_running s m ts k hrun]

/-- Witness for C8 (amended) at a concrete forwarded delivery. -/
theorem C8_session_forwarding_witness :
    ((⟨PState.RUNNING, true, 0, 100, [], 0, -1, false, false, some 2, 0, 1000000, 1000000, 3⟩ :
        Output).postState false = PState.RUNNING) ∧
    (((⟨PState.RUNNING, true, 0, 100, [], 0, -1, false, false, some 2, 0, 1000000, 1000000, 3⟩ :
        Output).OutputReady 8 200 false).2 =
      [Ev.primary 8 200 0, Ev.mjpegWrite 8 200 false]) := by
  refine ⟨by decide, ?_⟩
  have h := (C8_session_forwarding
    (⟨PState.RUNNING, true, 0, 100, [], 0, -1, false, false, some 2, 0, 1000000, 1000000, 3⟩ :
        Output) 8 200 false 2 (by decide)).1 (by decide)
  rw [h]
  decide

/-- C6: on a forwarded delivery whose renormalized timestamp exceeds the
active session's end deadline, the secondary sink is closed exactly once
and exactly one transcode handoff is emitted, both carrying the
session's artifact path, and the session is destroyed
(`mjpeg_output = none`, so `isMjpegRecording` becomes false); while the
renormalized timestamp stays at or below the deadline — or the delivery
is dropped by the primary state machine — no close and no handoff occur
and the session survives. -/
theorem C6_deadline_close (s : Output) (m : Nat) (ts : Int) (k : Bool) (p : Nat)
    (hmj : s.mjpeg_output = some p) :
    (s.postState k = PState.RUNNING → s.newLast ts k > s.record_end_timestamp →
       ((s.OutputReady m ts k).2.filter isCloseEv = [Ev.closeMjpeg p] ∧
        (s.OutputReady m ts k).2.filter isTranscodeEv = [Ev.transcode p] ∧
        (s.OutputReady m ts k).1.mjpeg_output = none)) ∧
    (s.postState k = PState.RUNNING → s.newLast ts k ≤ s.record_end_timestamp →
       ((s.OutputReady m ts k).2.filter isCloseEv = [] ∧
        (s.OutputReady m ts k).2.filter isTranscodeEv = [] ∧
        (s.OutputReady m ts k).1.mjpeg_output = some p)) ∧
    (s.postState k ≠ PState.RUNNING →
       ((s.OutputReady m ts k).2.filter isCloseEv = [] ∧
        (s.OutputReady m ts k).2.filter isTranscodeEv = [] ∧
        (s.OutputReady m ts k).1.mjpeg_output = some p)) := by
  have hnl : ts - (if s.restartRaised k = true then ts - s.last_timestamp_ else s.time_offset_) =
      s.newLast ts k := by
    unfold Output.newLast
    by_cases hres : s.restartRaised k = true
    · simp [hres, sub_sub_cancel]
    · simp [hres]
  refine ⟨?_, ?_, ?_⟩
  · intro hrun hgt
    rw [OutputReady_running_rec s m ts k p hrun hmj]
    simp only [hnl]
    rw [if_pos hgt, if_pos hgt]
    refine ⟨?_, ?_, rfl⟩
    · simp [List.filter_append, filter_ite, isCloseEv,
        flush_snd_filter_not_mjpeg s ts isCloseEv (fun _ _ _ => rfl)]
    · simp [List.filter_append, filter_ite, isTranscodeEv,
        flush_snd_filter_not_mjpeg s ts isTranscodeEv (fun _ _ _ => rfl)]
  · intro hrun hle
    rw [OutputReady_running_rec s m ts k p hrun hmj]
    simp only [hnl]
    rw [if_neg (not_lt.mpr hle), if_neg (not_lt.mpr hle)]
    refine ⟨?_, ?_, rfl⟩
    · simp [List.filter_append, filter_ite, isCloseEv,
        flush_snd_filter_not_mjpeg s ts isCloseEv (fun _ _ _ => rfl)]
    · simp [List.filter_append, filter_ite, isTranscodeEv,
        flush_snd_filter_not_mjpeg s ts isTranscodeEv (fun _ _ _ => rfl)]
  · intro hrun
    rw [OutputReady_not_running s m ts k hrun]
    refine ⟨?_, ?_, hmj⟩
    · simp [filter_ite, isCloseEv,
        flush_snd_filter_not_mjpeg s ts isCloseEv (fun _ _ _ => rfl)]
    · simp [filter_ite, isTranscodeEv,
        flush_snd_filter_not_mjpeg s ts isTranscodeEv (fun _ _ _ => rfl)]

/-- Witness for C6 at a concrete deadline-crossing delivery. -/
theorem C6_deadline_close_witness :
    ((⟨PState.RUNNING, true, 0, 900, [], 0, -1, false, false, some 5, 0, 1000, 1000, 6⟩ :
        Output).postState false = PState.RUNNING) ∧
    ((⟨PState.RUNNING, true, 0, 900, [], 0, -1, false, false, some 5, 0, 1000, 1000, 6⟩ :
        Output).newLast 1500 false > 1000) ∧
    (((⟨PState.RUNNING, true, 0, 900, [], 0, -1, false, false, some 5, 0, 1000, 1000, 6⟩ :
        Output).OutputReady 9 1500 false).2.filter isCloseEv = [Ev.closeMjpeg 5] ∧
     ((⟨PState.RUNNING, true, 0, 900, [], 0, -1, false, false, some 5, 0, 1000, 1000, 6⟩ :
        Output).OutputReady 9 1500 false).2.filter isTranscodeEv = [Ev.transcode 5] ∧
     ((⟨PState.RUNNING, true, 0, 900, [], 0, -1, false, false, some 5, 0, 1000, 1000, 6⟩ :
        Output).OutputReady 9 1500 false).1.mjpeg_output = none) :=
  ⟨by decide, by decide,
   (C6_deadline_close
      (⟨PState.RUNNING, true, 0, 900, [], 0, -1, false, false, some 5, 0, 1000, 1000, 6⟩ :
        Output) 9 1500 false 5 (by decide)).1 (by decide) (by decide)⟩

lemma flush_fst_pre_buffer_le (s : Output) (c : Int) :
    (s.flush_pre_buffer_to_mjpeg c).1.pre_buffer_.length ≤ s.pre_buffer_.length := by
  unfold Output.flush_pre_buffer_to_mjpeg
  split <;> simp

lemma flush_fst_pre_buffer_nil (s : Output) (c : Int) (h : s.pre_buffer_ = []) :
    (s.flush_pre_buffer_to_mjpeg c).1.pre_buffer_ = [] := by
  unfold Output.flush_pre_buffer_to_mjpeg
  split <;> simp [h]

lemma step_max_pre_frames (s : Output) (c : Cmd) :
    (s.step c).1.max_pre_frames = s.max_pre_frames := by
  cases c with
  | deliver m ts k =>
      show (s.OutputReady m ts k).1.max_pre_frames = s.max_pre_frames
      by_cases hrun : s.postState k = PState.RUNNING
      · rcases hmj : s.mjpeg_output with _ | p
        · rw [OutputReady_running_norec s m ts k hrun hmj]
        · rw [OutputReady_running_rec s m ts k p hrun hmj]
      · rw [OutputReady_not_running s m ts k hrun]
  | signal => rfl
  | notify id =>
      show (s.NotifyDetection id).1.max_pre_frames = s.max_pre_frames
      simp only [Output.NotifyDetection, Output.startMjpegRecording]
      split
      · rfl
      · split <;> rfl

lemma step_ring_le (s : Output) (c : Cmd) (h : s.pre_buffer_.length ≤ s.max_pre_frames) :
    (s.step c).1.pre_buffer_.length ≤ s.max_pre_frames := by
  cases c with
  | deliver m ts k =>
      show (s.OutputReady m ts k).1.pre_buffer_.length ≤ s.max_pre_frames
      have key : ∀ X : List Frame, X.length ≤ s.pre_buffer_.length →
          (if s.max_pre_frames ≠ 0
           then evictOldest s.max_pre_frames (X ++ [⟨m, ts, k⟩])
           else X).length ≤ s.max_pre_frames := by
        intro X hX
        split
        · exact evictOldest_length_le _ _
        · omega
      by_cases hrun : s.postState k = PState.RUNNING
      · rcases hmj : s.mjpeg_output with _ | p
        · rw [OutputReady_running_norec s m ts k hrun hmj]
          exact key s.pre_buffer_ (le_refl _)
        · rw [OutputReady_running_rec s m ts k p hrun hmj]
          refine key _ ?_
          split
          · exact flush_fst_pre_buffer_le s ts
          · exact le_refl _
      · rw [OutputReady_not_running s m ts k hrun]
        refine key _ ?_
        split
        · exact flush_fst_pre_buffer_le s ts
        · exact le_refl _
  | signal => exact h
  | notify id =>
      show ((s.NotifyDetection id).1.pre_buffer_).length ≤ s.max_pre_frames
      simp only [Output.NotifyDetection, Output.startMjpegRecording]
      split
      · exact h
      · split <;> exact h

lemma step_ring_nil (s : Output) (c : Cmd) (h0 : s.max_pre_frames = 0)
    (h : s.pre_buffer_ = []) : (s.step c).1.pre_buffer_ = [] := by
  cases c with
  | deliver m ts k =>
      show (s.OutputReady m ts k).1.pre_buffer_ = []
      have hcond : ¬ (s.max_pre_frames ≠ 0) := by omega
      by_cases hrun : s.postState k = PState.RUNNING
      · rcases hmj : s.mjpeg_output with _ | p
        · rw [OutputReady_running_norec s m ts k hrun hmj]
          simp only [if_neg hcond]
          exact h
        · rw [OutputReady_running_rec s m ts k p hrun hmj]
          simp only [if_neg hcond]
          split
          · exact flush_fst_pre_buffer_nil s ts h
          · exact h
      · rw [OutputReady_not_running s m ts k hrun]
        simp only [if_neg hcond]
        split
        · exact flush_fst_pre_buffer_nil s ts h
        · exact h
  | signal => exact h
  | notify id =>
      show (s.NotifyDetection id).1.pre_buffer_ = []
      simp only [Output.NotifyDetection, Output.startMjpegRecording]
      split
      · exact h
      · split <;> exact h

lemma run_max_pre_frames (cmds : List Cmd) :
    ∀ s : Output, (s.run cmds).1.max_pre_frames = s.max_pre_frames := by
  induction cmds with
  | nil => intro s; rfl
  | cons c cs ih =>
      intro s
      show (((s.step c).1.run cs).1).max_pre_frames = s.max_pre_frames
      rw [ih, step_max_pre_frames]

lemma run_ring_le (cmds : List Cmd) :
    ∀ s : Output, s.pre_buffer_.length ≤ s.max_pre_frames →
      (s.run cmds).1.pre_buffer_.length ≤ (s.run cmds).1.max_pre_frames := by
  induction cmds with
  | nil => intro s h; exact h
  | cons c cs ih =>
      intro s h
      show ((s.step c).1.run cs).1.pre_buffer_.length ≤ ((s.step c).1.run cs).1.max_pre_frames
      refine ih (s.step c).1 ?_
      rw [step_max_pre_frames]
      exact step_ring_le s c h

lemma run_ring_nil (cmds : List Cmd) :
    ∀ s : Output, s.max_pre_frames = 0 → s.pre_buffer_ = [] →
      (s.run cmds).1.pre_buffer_ = [] := by
  induction cmds with
  | nil => intro s _ h; exact h
  | cons c cs ih =>
      intro s h0 h
      show ((s.step c).1.run cs).1.pre_buffer_ = []
      refine ih (s.step c).1 ?_ (step_ring_nil s c h0 h)
      rw [step_max_pre_frames]
      exact h0

/-- C7: over every run from a freshly constructed controller, the
pre-event ring never holds more than the configured capacity
`max_pre_frames` after a call completes; eviction always drops from the
front of the ring (oldest first, independent of keyframe status) — it is
exactly `List.drop (length - capacity)`; and with capacity `0` the ring
stays empty forever (no frame is ever inserted). -/
theorem C7_ring_bound :
    (∀ (pause : Bool) (maxPre : Nat) (win : Int) (cmds : List Cmd),
       ((Output.mk0 pause maxPre win).run cmds).1.pre_buffer_.length ≤ maxPre ∧
       (maxPre = 0 → ((Output.mk0 pause maxPre win).run cmds).1.pre_buffer_ = [])) ∧
    (∀ (maxN : Nat) (l : List Frame), evictOldest maxN l = l.drop (l.length - maxN)) := by
  refine ⟨?_, evictOldest_eq_drop⟩
  intro pause maxPre win cmds
  constructor
  · have h := run_ring_le cmds (Output.mk0 pause maxPre win) (by simp [Output.mk0])
    rwa [run_max_pre_frames] at h
  · intro h0
    exact run_ring_nil cmds (Output.mk0 pause maxPre win) h0 rfl

/-- Witness for C7 on concrete runs. -/
theorem C7_ring_bound_witness :
    ((Output.mk0 false 0 5).run [Cmd.deliver 1 0 true]).1.pre_buffer_ = [] ∧
    ((Output.mk0 false 2 5).run
        [Cmd.deliver 1 0 true, Cmd.deliver 2 1 false,
         Cmd.deliver 3 2 false]).1.pre_buffer_.length ≤ 2 ∧
    evictOldest 2 [⟨1, 0, true⟩, ⟨2, 1, false⟩, ⟨3, 2, false⟩] =
      ([⟨1, 0, true⟩, ⟨2, 1, false⟩, ⟨3, 2, false⟩] : List Frame).drop 1 :=
  ⟨(C7_ring_bound.1 false 0 5 [Cmd.deliver 1 0 true]).2 rfl,
   (C7_ring_bound.1 false 2 5
      [Cmd.deliver 1 0 true, Cmd.deliver 2 1 false, Cmd.deliver 3 2 false]).1,
   C7_ring_bound.2 2 [⟨1, 0, true⟩, ⟨2, 1, false⟩, ⟨3, 2, false⟩]⟩

/-- C9: in segment mode (nonzero `segment` threshold, `split` off) with
the destination file already open, the destination is rotated — closed
and reopened, in that order, *before* the buffer is written — on exactly
those buffers that carry the keyframe flag *and* whose elapsed
milliseconds since the current segment start strictly exceed the
threshold; the reopened destination's segment start becomes the current
buffer's timestamp (in ms), and a buffer failing either condition is
written with no rotation and no state change. -/
theorem C9_segment_rotation (opts : FOptions) (s : FileOutput) (m size : Nat) (ts : Int)
    (flags : Nat) (i : Nat)
    (hseg : opts.segment ≠ 0) (hsplit : opts.split = false)
    (hfp : s.fp_ = some (FP.fileFP i))
    (hdash : opts.outputDash = false) (hempty : opts.outputEmpty = false) :
    ((flags &&& FLAG_KEYFRAME ≠ 0 ∧ ts.tdiv 1000 - s.file_start_time_ms_ > opts.segment) →
       (FileOutput.outputBuffer opts s m size ts flags).2 =
         [FEv.closeF i, FEv.openF s.count_ (ts.tdiv 1000)] ++
           (if size ≠ 0 then [FEv.writeF m size] else []) ∧
       (FileOutput.outputBuffer opts s m size ts flags).1.file_start_time_ms_ =
         ts.tdiv 1000) ∧
    (¬ (flags &&& FLAG_KEYFRAME ≠ 0 ∧ ts.tdiv 1000 - s.file_start_time_ms_ > opts.segment) →
       (FileOutput.outputBuffer opts s m size ts flags).2 =
         (if size ≠ 0 then [FEv.writeF m size] else []) ∧
       (FileOutput.outputBuffer opts s m size ts flags).1 = s) := by
  constructor
  · rintro ⟨hkey, helap⟩
    simp only [FileOutput.outputBuffer, FileOutput.closeFile, FileOutput.openFile,
      hfp, hsplit, hdash, hempty]
    rw [if_pos (by simp [hseg, hkey, helap])]
    simp [hfp]
  · intro hnot
    simp only [FileOutput.outputBuffer, hfp]
    rw [if_neg ?_]
    · constructor
      · simp
      · rfl
    · simp only [hsplit, Bool.false_and, Bool.or_false]
      simp only [Bool.or_eq_true, decide_eq_true_eq, Bool.and_eq_true]
      push_neg
      refine ⟨by simp, ?_⟩
      intro hconj
      have := fun h2 => hnot ⟨hconj.2, h2⟩
      omega

/-- Witness for C9: with a 10000 ms threshold and segment start at 0 ms,
the keyframe at t=11 s rotates (close, reopen at 11000 ms, then write)
while the keyframe at t=5 s does not; and over the whole keyframe
schedule t=0,5,11,15 s (non-keyframes in between) the only close event
of the run is the single rotation at t=11 s. -/
theorem C9_segment_rotation_witness :
    ((FileOutput.outputBuffer ⟨10000, false, 0, false, false⟩ ⟨some (FP.fileFP 0), 1, 0⟩
        7 4 11000000 1).2 =
      [FEv.closeF 0, FEv.openF 1 11000] ++ [FEv.writeF 7 4] ∧
     (FileOutput.outputBuffer ⟨10000, false, 0, false, false⟩ ⟨some (FP.fileFP 0), 1, 0⟩
        7 4 11000000 1).1.file_start_time_ms_ = 11000) ∧
    ((FileOutput.outputBuffer ⟨10000, false, 0, false, false⟩ ⟨some (FP.fileFP 0), 1, 0⟩
        7 4 5000000 1).2 = [FEv.writeF 7 4] ∧
     (FileOutput.outputBuffer ⟨10000, false, 0, false, false⟩ ⟨some (FP.fileFP 0), 1, 0⟩
        7 4 5000000 1).1 = ⟨some (FP.fileFP 0), 1, 0⟩) ∧
    (FileOutput.runBufs ⟨10000, false, 0, false, false⟩ ⟨none, 0, 0⟩
        [(1, 4, 0, 1), (2, 4, 2000000, 0), (3, 4, 5000000, 1), (4, 4, 8000000, 0),
         (5, 4, 11000000, 1), (6, 4, 15000000, 1)]).2.filter
        (fun e => match e with | FEv.closeF _ => true | _ => false) =
      [FEv.closeF 0] := by
  refine ⟨?_, ?_, by decide⟩
  · have h := (C9_segment_rotation ⟨10000, false, 0, false, false⟩ ⟨some (FP.fileFP 0), 1, 0⟩
      7 4 11000000 1 0 (by decide) rfl rfl rfl rfl).1 (by decide)
    simpa using h
  · have h := (C9_segment_rotation ⟨10000, false, 0, false, false⟩ ⟨some (FP.fileFP 0), 1, 0⟩
      7 4 5000000 1 0 (by decide) rfl rfl rfl rfl).2 (by decide)
    simpa using h

lemma gate_not_running (s : Output) (hst : s.state_ ≠ PState.RUNNING) :
    s.gateState ≠ PState.RUNNING := by
  unfold Output.gateState
  split
  · simp
  · split
    · simp
    · exact hst

lemma step_no_primary_or_first (s : Output) (c : Cmd)
    (hst : s.state_ ≠ PState.RUNNING) (hlast : s.last_timestamp_ = 0) :
    ((s.step c).2.filter isPrimaryEv = [] ∧ (s.step c).1.state_ ≠ PState.RUNNING ∧
        (s.step c).1.last_timestamp_ = 0) ∨
    (∃ m', (s.step c).2.filter isPrimaryEv =
        [Ev.primary m' 0 (FLAG_KEYFRAME ||| FLAG_RESTART)]) := by
  cases c with
  | signal => exact Or.inl ⟨rfl, hst, hlast⟩
  | notify id =>
      left
      refine ⟨?_, ?_, ?_⟩ <;>
        · show _
          simp only [Output.step, Output.NotifyDetection, Output.startMjpegRecording]
          split
          · first | rfl | exact hst | exact hlast
          · split <;> first | rfl | exact hst | exact hlast
  | deliver m ts k =>
      by_cases hrun : s.postState k = PState.RUNNING
      · right
        have hres : s.restartRaised k = true := by
          by_cases hres : s.restartRaised k = true
          · exact hres
          · exfalso
            unfold Output.postState at hrun
            rw [if_neg (by simp [hres])] at hrun
            exact gate_not_running s hst hrun
        have hk : k = true := restart_keyframe s k hres
        have hfl : s.outFlags k = FLAG_KEYFRAME ||| FLAG_RESTART := by
          subst hk
          simp [Output.outFlags, hres]
        refine ⟨m, ?_⟩
        show (s.OutputReady m ts k).2.filter isPrimaryEv = _
        rcases hmj : s.mjpeg_output with _ | p
        · rw [OutputReady_running_norec s m ts k hrun hmj]
          simp [List.filter_append, filter_ite, isPrimaryEv, hres, hlast, hfl]
        · rw [OutputReady_running_rec s m ts k p hrun hmj]
          simp [List.filter_append, filter_ite, isPrimaryEv, hres, hlast, hfl,
            flush_snd_filter_not_mjpeg s ts isPrimaryEv (fun _ _ _ => rfl)]
      · left
        show _
        rw [show (s.step (Cmd.deliver m ts k)) = s.OutputReady m ts k from rfl,
          OutputReady_not_running s m ts k hrun]
        refine ⟨?_, ?_, ?_⟩
        · simp [filter_ite, isPrimaryEv,
            flush_snd_filter_not_mjpeg s ts isPrimaryEv (fun _ _ _ => rfl)]
        · exact hrun
        · exact hlast

lemma run_first_primary (cmds : List Cmd) :
    ∀ s : Output, s.state_ ≠ PState.RUNNING → s.last_timestamp_ = 0 →
      ∀ (m : Nat) (lts : Int) (fl : Nat),
        ((s.run cmds).2.filter isPrimaryEv).head? = some (Ev.primary m lts fl) →
        lts = 0 ∧ fl = FLAG_KEYFRAME ||| FLAG_RESTART := by
  induction cmds with
  | nil =>
      intro s _ _ m lts fl h
      simp [Output.run] at h
  | cons c cs ih =>
      intro s hst hlast m lts fl h
      have hsplit : (s.run (c :: cs)).2 = (s.step c).2 ++ ((s.step c).1.run cs).2 := rfl
      rw [hsplit, List.filter_append] at h
      rcases step_no_primary_or_first s c hst hlast with ⟨h1, h2, h3⟩ | ⟨m', h1⟩
      · rw [h1, List.nil_append] at h
        exact ih (s.step c).1 h2 h3 m lts fl h
      · rw [h1, List.singleton_append, List.head?_cons, Option.some.injEq] at h
        injection h with e1 e2 e3
        exact ⟨e2.symm, e3.symm⟩

/-- C10: over every call sequence from a freshly constructed controller,
the first buffer ever forwarded to the primary sink carries both the
`Keyframe` and `Restart` flags (in particular it is a keyframe), and its
renormalized timestamp is exactly `0` regardless of its raw timestamp —
the first forward necessarily happens on a restart transition out of the
initial `WAITING_KEYFRAME` state with `last_timestamp_` still `0`, so
`time_offset_` becomes the raw timestamp itself. -/
theorem C10_first_forward (pause : Bool) (maxPre : Nat) (win : Int) (cmds : List Cmd)
    (m : Nat) (lts : Int) (fl : Nat)
    (h : (((Output.mk0 pause maxPre win).run cmds).2.filter isPrimaryEv).head? =
           some (Ev.primary m lts fl)) :
    lts = 0 ∧ fl = FLAG_KEYFRAME ||| FLAG_RESTART ∧ fl &&& FLAG_KEYFRAME ≠ 0 := by
  have base := run_first_primary cmds (Output.mk0 pause maxPre win)
    (by simp [Output.mk0]) rfl m lts fl h
  refine ⟨base.1, base.2, ?_⟩
  rw [base.2]
  decide

/-- Witness for C10: a run whose first delivery is a keyframe at raw
timestamp 1234 still emits its first primary write at timestamp 0 with
both flags. -/
theorem C10_first_forward_witness :
    ((((Output.mk0 false 0 7).run [Cmd.deliver 9 1234 true]).2.filter isPrimaryEv).head? =
        some (Ev.primary 9 0 3)) ∧
    ((0 : Int) = 0 ∧ (3 : Nat) = FLAG_KEYFRAME ||| FLAG_RESTART ∧
      (3 : Nat) &&& FLAG_KEYFRAME ≠ 0) :=
  ⟨by decide, C10_first_forward false 0 7 [Cmd.deliver 9 1234 true] 9 0 3 (by decide)⟩
